import Mathlib

/-!
Verification development for the milvus-stress-test load harness (Go).

The embedding models `main.go`, the current variant of the program: the
pressure-level resolver, the ramp-up scheduler `calculateDynamicLoad`, the
deadline-driven insert/search worker loops with their shared counters, the
throughput computation, and the linear orchestration of the run.

Modelling conventions:
* Go `time.Duration` values are integer nanosecond counts (`ℤ` or `ℕ`).
* Go `float64` arithmetic in `calculateDynamicLoad` and in the throughput
  computation is modelled over `ℚ`; the concrete inputs evaluated below are
  ones on which the float64 computation is exact (denominators are powers of
  two), and the inequality facts proved are preserved by the monotone
  rounding of IEEE-754 operations.
* Go's `int(x)` conversion from `float64` truncates toward zero, which is
  `truncTowardZero` below; Go integer division on `int` also truncates
  toward zero, which is `Int.tdiv`.
* The external Milvus calls are an oracle: an environment records, for each
  call the program makes, whether it succeeds, and for each worker the
  sequence of per-iteration outcomes its deadline window allows.
-/

namespace MilvusStress

/-- Go `int(x)` conversion applied to a `float64`: truncation toward zero. -/
def truncTowardZero (q : ℚ) : ℤ := if 0 ≤ q then ⌊q⌋ else -⌊-q⌋

/-- The helper `func max(a, b int) int` of main.go (lines 47-52). -/
def goMax (a b : ℤ) : ℤ := if a > b then a else b

/-- The progress clamp of main.go lines 33-35:
`if progress > 1.0 { progress = 1.0 }`. -/
def clampProgress (p : ℚ) : ℚ := if p > 1 then 1 else p

/-- `calculateDynamicLoad` of main.go (lines 26-45).  Times are in integer
nanoseconds; the float64 arithmetic is modelled exactly over `ℚ`.  Returns
`(currentWorkers, currentBatchSize)`. -/
def calculateDynamicLoad (elapsed totalDuration maxWorkers maxBatchSize : ℤ) :
    ℤ × ℤ :=
  if elapsed ≥ totalDuration then (maxWorkers, maxBatchSize)
  else
    let progress : ℚ := clampProgress ((elapsed : ℚ) / (totalDuration : ℚ))
    let startWorkers : ℤ := goMax 1 (maxWorkers.tdiv 10)
    let startBatchSize : ℤ := goMax 100 (maxBatchSize.tdiv 10)
    (startWorkers + truncTowardZero (((maxWorkers - startWorkers : ℤ) : ℚ) * progress),
     startBatchSize + truncTowardZero (((maxBatchSize - startBatchSize : ℤ) : ℚ) * progress))

/-- The pressure-level switch of main.go (lines 125-146): resolves the
`--pressure` flag value to `(pressureLevel, numConcurrentGoroutines,
batchSize)`.  The Go `switch` compares strings exactly (case-sensitively);
every unmatched string takes the `default` branch. -/
def resolvePressure (pressure : String) : String × ℤ × ℤ :=
  if pressure = "low" then ("LOW", 5, 500)
  else if pressure = "medium" then ("MEDIUM", 20, 2000)
  else if pressure = "high" then ("HIGH", 50, 5000)
  else if pressure = "extreme" then ("EXTREME", 100, 10000)
  else ("MEDIUM (default)", 20, 2000)

/-! ## Helper lemmas about the ramp-up scheduler -/

theorem goMax_eq_max (a b : ℤ) : goMax a b = max a b := by
  unfold goMax
  split <;> omega

theorem truncTowardZero_of_nonneg {q : ℚ} (h : 0 ≤ q) :
    truncTowardZero q = ⌊q⌋ := if_pos h

theorem truncTowardZero_zero : truncTowardZero 0 = 0 := by
  rw [truncTowardZero_of_nonneg le_rfl]
  exact Int.floor_zero

/-- The 10%-start value lies between the absolute minimum and the maximum. -/
theorem start_le_max {lo maxV : ℤ} (h1 : lo ≤ maxV) (h0 : 0 ≤ maxV) :
    goMax lo (maxV.tdiv 10) ≤ maxV := by
  rw [goMax_eq_max]
  refine max_le h1 ?_
  rw [Int.tdiv_eq_ediv h0 (by norm_num)]
  exact Int.ediv_le_self 10 h0

theorem lo_le_start (lo v : ℤ) : lo ≤ goMax lo v := by
  rw [goMax_eq_max]; exact le_max_left _ _

theorem clampProgress_nonneg {p : ℚ} (h : 0 ≤ p) : 0 ≤ clampProgress p := by
  unfold clampProgress
  split <;> linarith

theorem clampProgress_le_one {p : ℚ} : clampProgress p ≤ 1 := by
  unfold clampProgress
  split <;> linarith

theorem clampProgress_mono {p q : ℚ} (h : p ≤ q) :
    clampProgress p ≤ clampProgress q := by
  unfold clampProgress
  split <;> split <;> linarith

/-- One interpolated component `start + int(float64(maxV-start)*progress)`
is bounded by `maxV` whenever `start ≤ maxV` and the progress is in `[0,1]`. -/
theorem interp_le_max {startV maxV : ℤ} {p : ℚ} (hs : startV ≤ maxV)
    (h0 : 0 ≤ p) (h1 : p ≤ 1) :
    startV + truncTowardZero (((maxV - startV : ℤ) : ℚ) * p) ≤ maxV := by
  have hc : (0 : ℚ) ≤ ((maxV - startV : ℤ) : ℚ) := by
    push_cast; simp only [sub_nonneg]; exact_mod_cast hs
  have hnn : (0 : ℚ) ≤ ((maxV - startV : ℤ) : ℚ) * p := mul_nonneg hc h0
  rw [truncTowardZero_of_nonneg hnn]
  have hle : ((maxV - startV : ℤ) : ℚ) * p ≤ ((maxV - startV : ℤ) : ℚ) := by
    calc ((maxV - startV : ℤ) : ℚ) * p ≤ ((maxV - startV : ℤ) : ℚ) * 1 :=
          mul_le_mul_of_nonneg_left h1 hc
      _ = ((maxV - startV : ℤ) : ℚ) := mul_one _
  have := Int.floor_le_floor hle
  rw [Int.floor_intCast] at this
  omega

/-- One interpolated component is at least `start` when `start ≤ maxV` and
the progress is nonnegative. -/
theorem start_le_interp {startV maxV : ℤ} {p : ℚ} (hs : startV ≤ maxV)
    (h0 : 0 ≤ p) :
    startV ≤ startV + truncTowardZero (((maxV - startV : ℤ) : ℚ) * p) := by
  have hc : (0 : ℚ) ≤ ((maxV - startV : ℤ) : ℚ) := by
    push_cast; simp only [sub_nonneg]; exact_mod_cast hs
  have hnn : (0 : ℚ) ≤ ((maxV - startV : ℤ) : ℚ) * p := mul_nonneg hc h0
  rw [truncTowardZero_of_nonneg hnn]
  have := Int.floor_le_floor hnn
  rw [Int.floor_zero] at this
  omega

/-- One interpolated component is monotone in the progress when
`start ≤ maxV` and both progresses are nonnegative. -/
theorem interp_mono {startV maxV : ℤ} {p q : ℚ} (hs : startV ≤ maxV)
    (hp : 0 ≤ p) (hpq : p ≤ q) :
    startV + truncTowardZero (((maxV - startV : ℤ) : ℚ) * p) ≤
      startV + truncTowardZero (((maxV - startV : ℤ) : ℚ) * q) := by
  have hc : (0 : ℚ) ≤ ((maxV - startV : ℤ) : ℚ) := by
    push_cast; simp only [sub_nonneg]; exact_mod_cast hs
  have hq : 0 ≤ q := le_trans hp hpq
  rw [truncTowardZero_of_nonneg (mul_nonneg hc hp),
    truncTowardZero_of_nonneg (mul_nonneg hc hq)]
  have := Int.floor_le_floor (mul_le_mul_of_nonneg_left hpq hc)
  omega

/-! ## Claim theorems for the ramp-up scheduler -/

/-- Claim C3: for every `elapsed`, `totalDuration`, `maxWorkers`, `maxBatch`
with `elapsed ≥ totalDuration`, `totalDuration > 0`, `maxWorkers ≥ 1`,
`maxBatch ≥ 1`, the ramp-up function returns exactly
`(maxWorkers, maxBatch)`. -/
theorem claim_C3_ramp_at_deadline (elapsed totalDuration maxWorkers maxBatchSize : ℤ)
    (h : elapsed ≥ totalDuration) (ht : 0 < totalDuration)
    (hw : 1 ≤ maxWorkers) (hb : 1 ≤ maxBatchSize) :
    calculateDynamicLoad elapsed totalDuration maxWorkers maxBatchSize =
      (maxWorkers, maxBatchSize) := by
  unfold calculateDynamicLoad
  rw [if_pos h]

/-- Witness for C3 at a concrete input. -/
theorem claim_C3_ramp_at_deadline_witness :
    calculateDynamicLoad 7 5 20 2000 = (20, 2000) :=
  claim_C3_ramp_at_deadline 7 5 20 2000 (by norm_num) (by norm_num)
    (by norm_num) (by norm_num)

/-- Claim C5: for `elapsed = 0` and every `totalDuration > 0`,
`maxWorkers ≥ 1`, `maxBatch ≥ 1`, the ramp-up function returns exactly
`(max 1 (maxWorkers/10), max 100 (maxBatch/10))` where the divisions are Go
integer divisions (truncation toward zero, `Int.tdiv`). -/
theorem claim_C5_ramp_at_start (totalDuration maxWorkers maxBatchSize : ℤ)
    (ht : 0 < totalDuration) (hw : 1 ≤ maxWorkers) (hb : 1 ≤ maxBatchSize) :
    calculateDynamicLoad 0 totalDuration maxWorkers maxBatchSize =
      (max 1 (maxWorkers.tdiv 10), max 100 (maxBatchSize.tdiv 10)) := by
  unfold calculateDynamicLoad
  rw [if_neg (by omega)]
  have hp : clampProgress ((0 : ℚ) / (totalDuration : ℚ)) = 0 := by
    norm_num [clampProgress]
  simp only [Int.cast_zero, hp, mul_zero, truncTowardZero_zero, add_zero,
    goMax_eq_max]

/-- Witness for C5 at a concrete input. -/
theorem claim_C5_ramp_at_start_witness :
    calculateDynamicLoad 0 30 100 10000 = (10, 1000) := by
  have h := claim_C5_ramp_at_start 30 100 10000 (by norm_num) (by norm_num)
    (by norm_num)
  rw [h]
  decide

/-- Claim C10: for every `elapsed ≥ 0`, `totalDuration > 0`,
`maxWorkers ≥ 1`, `maxBatch ≥ 1`, the worker count returned by the ramp-up
function lies in the closed interval `[1, maxWorkers]`. -/
theorem claim_C10_workers_bounded (elapsed totalDuration maxWorkers maxBatchSize : ℤ)
    (he : 0 ≤ elapsed) (ht : 0 < totalDuration) (hw : 1 ≤ maxWorkers)
    (hb : 1 ≤ maxBatchSize) :
    1 ≤ (calculateDynamicLoad elapsed totalDuration maxWorkers maxBatchSize).1 ∧
      (calculateDynamicLoad elapsed totalDuration maxWorkers maxBatchSize).1 ≤
        maxWorkers := by
  unfold calculateDynamicLoad
  split
  · exact ⟨hw, le_rfl⟩
  · dsimp only
    have hp0 : 0 ≤ clampProgress ((elapsed : ℚ) / (totalDuration : ℚ)) :=
      clampProgress_nonneg (div_nonneg (by exact_mod_cast he)
        (by exact_mod_cast le_of_lt ht))
    have hp1 : clampProgress ((elapsed : ℚ) / (totalDuration : ℚ)) ≤ 1 :=
      clampProgress_le_one
    have hs1 : 1 ≤ goMax 1 (maxWorkers.tdiv 10) := lo_le_start _ _
    have hsM : goMax 1 (maxWorkers.tdiv 10) ≤ maxWorkers :=
      start_le_max hw (by omega)
    exact ⟨le_trans hs1 (start_le_interp hsM hp0), interp_le_max hsM hp0 hp1⟩

/-- Witness for C10 at a concrete input. -/
theorem claim_C10_workers_bounded_witness :
    1 ≤ (calculateDynamicLoad 3 30 100 10000).1 ∧
      (calculateDynamicLoad 3 30 100 10000).1 ≤ 100 :=
  claim_C10_workers_bounded 3 30 100 10000 (by norm_num) (by norm_num)
    (by norm_num) (by norm_num)

/-- Claim C4 counterexample: with `totalDuration = 8 > 0`,
`maxWorkers = 1 ≥ 1`, `maxBatch = 1 ≥ 1` and elapsed times `0 ≤ 4`, the
batch component of the ramp-up output strictly decreases (from `100` at
`elapsed = 0` to `51` at `elapsed = 4`), so the batch component is not
monotonically non-decreasing in `elapsed`. -/
theorem claim_C4_counterexample :
    (0 : ℤ) < 8 ∧ (1 : ℤ) ≤ 1 ∧ (0 : ℤ) ≤ 0 ∧ (0 : ℤ) ≤ 4 ∧
      (calculateDynamicLoad 0 8 1 1).2 = 100 ∧
      (calculateDynamicLoad 4 8 1 1).2 = 51 ∧
      (calculateDynamicLoad 4 8 1 1).2 < (calculateDynamicLoad 0 8 1 1).2 := by
  have h0 : (calculateDynamicLoad 0 8 1 1).2 = 100 := by
    unfold calculateDynamicLoad
    rw [if_neg (by norm_num)]
    have hp : clampProgress ((0 : ℤ) / ((8 : ℤ) : ℚ)) = 0 := by
      norm_num [clampProgress]
    dsimp only
    rw [hp, mul_zero, truncTowardZero_zero]
    decide
  have h4 : (calculateDynamicLoad 4 8 1 1).2 = 51 := by
    unfold calculateDynamicLoad
    rw [if_neg (by norm_num)]
    have hp : clampProgress (((4 : ℤ) : ℚ) / ((8 : ℤ) : ℚ)) = 1 / 2 := by
      norm_num [clampProgress]
    dsimp only
    rw [hp]
    have hgb : goMax 100 ((1 : ℤ).tdiv 10) = 100 := by decide
    rw [hgb]
    have harg : (((1 : ℤ) - 100 : ℤ) : ℚ) * (1 / 2) = -(99 / 2) := by
      norm_num
    rw [harg]
    have hneg : ¬ (0 : ℚ) ≤ -(99 / 2) := by norm_num
    rw [truncTowardZero, if_neg hneg, neg_neg]
    have hfl : ⌊(99 / 2 : ℚ)⌋ = 49 := by
      rw [Int.floor_eq_iff] <;> norm_num
    rw [hfl]
    norm_num
  exact ⟨by norm_num, le_rfl, le_rfl, by norm_num, h0, h4, by omega⟩

/-- Claim C4 amended: for fixed `totalDuration > 0`, `maxWorkers ≥ 1`,
`maxBatch ≥ 1`, the worker component of the ramp-up output is monotonically
non-decreasing in `elapsed` over all `elapsed ≥ 0`, and the batch component
is monotonically non-decreasing provided additionally `maxBatch ≥ 100` (so
that the 100-unit floor does not exceed the configured maximum). -/
theorem claim_C4_amended_ramp_monotone
    (totalDuration maxWorkers maxBatchSize e1 e2 : ℤ)
    (ht : 0 < totalDuration) (hw : 1 ≤ maxWorkers) (hb : 1 ≤ maxBatchSize)
    (h1 : 0 ≤ e1) (h12 : e1 ≤ e2) :
    (calculateDynamicLoad e1 totalDuration maxWorkers maxBatchSize).1 ≤
        (calculateDynamicLoad e2 totalDuration maxWorkers maxBatchSize).1 ∧
      (100 ≤ maxBatchSize →
        (calculateDynamicLoad e1 totalDuration maxWorkers maxBatchSize).2 ≤
          (calculateDynamicLoad e2 totalDuration maxWorkers maxBatchSize).2) := by
  have htQ : (0 : ℚ) < (totalDuration : ℚ) := by exact_mod_cast ht
  have hp0 : ∀ e : ℤ, 0 ≤ e →
      0 ≤ clampProgress ((e : ℚ) / (totalDuration : ℚ)) := fun e hE =>
    clampProgress_nonneg (div_nonneg (by exact_mod_cast hE) (le_of_lt htQ))
  have hpmono : clampProgress ((e1 : ℚ) / (totalDuration : ℚ)) ≤
      clampProgress ((e2 : ℚ) / (totalDuration : ℚ)) := by
    refine clampProgress_mono ?_
    rw [div_eq_mul_inv, div_eq_mul_inv]
    exact mul_le_mul_of_nonneg_right (by exact_mod_cast h12)
      (inv_nonneg.mpr (le_of_lt htQ))
  have hswM : goMax 1 (maxWorkers.tdiv 10) ≤ maxWorkers :=
    start_le_max hw (by omega)
  rcases le_or_lt totalDuration e1 with hd1 | hd1
  · -- both elapsed times are at or past the deadline
    have hd2 : totalDuration ≤ e2 := le_trans hd1 h12
    unfold calculateDynamicLoad
    rw [if_pos hd1, if_pos hd2]
    exact ⟨le_rfl, fun _ => le_rfl⟩
  · rcases le_or_lt totalDuration e2 with hd2 | hd2
    · -- e1 is before the deadline, e2 at or past it
      unfold calculateDynamicLoad
      rw [if_neg (by omega), if_pos hd2]
      dsimp only
      constructor
      · exact interp_le_max hswM (hp0 e1 h1) clampProgress_le_one
      · intro h100
        exact interp_le_max (start_le_max h100 (by omega)) (hp0 e1 h1)
          clampProgress_le_one
    · -- both before the deadline
      unfold calculateDynamicLoad
      rw [if_neg (by omega), if_neg (by omega)]
      dsimp only
      constructor
      · exact interp_mono hswM (hp0 e1 h1) hpmono
      · intro h100
        exact interp_mono (start_le_max h100 (by omega)) (hp0 e1 h1) hpmono

/-- Witness for the amended C4 at a concrete input. -/
theorem claim_C4_amended_ramp_monotone_witness :
    (calculateDynamicLoad 3 30 100 10000).1 ≤
        (calculateDynamicLoad 17 30 100 10000).1 ∧
      (100 ≤ (10000 : ℤ) →
        (calculateDynamicLoad 3 30 100 10000).2 ≤
          (calculateDynamicLoad 17 30 100 10000).2) :=
  claim_C4_amended_ramp_monotone 30 100 10000 3 17 (by norm_num)
    (by norm_num) (by norm_num) (by norm_num) (by norm_num)

/-! ## Pressure profile resolution (main.go lines 125-146) -/

/-- Claim C6 counterexample: the Go `switch` compares the pressure string
case-sensitively, so the uppercase spelling `"LOW"` does not resolve to the
Low profile `(5, 500)`; it falls through to the Medium default. -/
theorem claim_C6_counterexample :
    resolvePressure "LOW" = ("MEDIUM (default)", 20, 2000) ∧
      (resolvePressure "LOW").2.1 ≠ 5 := by
  exact ⟨rfl, by decide⟩

/-- Claim C6 amended: profile resolution is total and case-sensitive: the
exact lowercase strings `"low"`, `"medium"`, `"high"`, `"extreme"` resolve
to `(5, 500)`, `(20, 2000)`, `(50, 5000)`, `(100, 10000)` respectively, and
every other string (other casings, the empty string, anything unrecognized)
resolves to the Medium default `(20, 2000)` rather than failing. -/
theorem claim_C6_amended_resolution_total :
    resolvePressure "low" = ("LOW", 5, 500) ∧
      resolvePressure "medium" = ("MEDIUM", 20, 2000) ∧
      resolvePressure "high" = ("HIGH", 50, 5000) ∧
      resolvePressure "extreme" = ("EXTREME", 100, 10000) ∧
      (∀ s : String, s ≠ "low" → s ≠ "medium" → s ≠ "high" → s ≠ "extreme" →
        resolvePressure s = ("MEDIUM (default)", 20, 2000)) := by
  refine ⟨rfl, rfl, rfl, rfl, ?_⟩
  intro s h1 h2 h3 h4
  unfold resolvePressure
  rw [if_neg h1, if_neg h2, if_neg h3, if_neg h4]

/-- Witness for the amended C6: the default branch at the concrete
unrecognized input `"LOW"`. -/
theorem claim_C6_amended_resolution_total_witness :
    resolvePressure "LOW" = ("MEDIUM (default)", 20, 2000) :=
  claim_C6_amended_resolution_total.2.2.2.2 "LOW" (by decide) (by decide)
    (by decide) (by decide)

/-! ## Throughput computation (main.go lines 287-288 and 365-366)

`insertsPerSec = float64(totalVectorsInserted) / insertionTime.Seconds()`
is an IEEE-754 float64 division with no guard on the divisor.  `GoFloat`
models the float64 values that can arise here: finite values are carried
exactly as rationals (the rounding of finite results is immaterial to the
claims settled below), and the IEEE zero-divisor outcomes are modelled
exactly: `x / 0 = +Inf` for finite `x > 0` and `0 / 0 = NaN`.  All operands
in the program are nonnegative, so negative zero and `-Inf` do not arise. -/

inductive GoFloat where
  | fin : ℚ → GoFloat
  | posInf : GoFloat
  | nan : GoFloat
deriving DecidableEq

/-- IEEE-754 division restricted to the nonnegative operands the program
produces.  Non-finite operands do not arise in the throughput computation;
they are mapped to `nan`. -/
def goDivF : GoFloat → GoFloat → GoFloat
  | .fin a, .fin b =>
    if b = 0 then (if a = 0 then .nan else .posInf) else .fin (a / b)
  | _, _ => .nan

/-- The throughput computation of main.go lines 288 and 366:
`float64(totalOps) / elapsedSeconds`, with the counter a nonnegative
integer and the elapsed time in seconds a nonnegative rational. -/
def throughputCalc (totalOps : ℕ) (elapsedSeconds : ℚ) : GoFloat :=
  goDivF (.fin totalOps) (.fin elapsedSeconds)

/-- Claim C7 counterexample: at `totalOps = 1000` and zero elapsed time the
unguarded division yields `+Inf`, which is neither an explicitly reported
zero nor NaN. -/
theorem claim_C7_counterexample :
    throughputCalc 1000 0 = GoFloat.posInf ∧
      GoFloat.posInf ≠ GoFloat.fin 0 ∧ GoFloat.posInf ≠ GoFloat.nan := by
  refine ⟨?_, by decide, by decide⟩
  simp only [throughputCalc, goDivF, if_true]
  rw [if_neg (by norm_num)]

/-- Claim C7 amended: for every `totalOps` and every `elapsed > 0` the
throughput computation equals exactly `totalOps / elapsed` (in particular
`totalOps = 1000`, `elapsed = 2` gives exactly `500`); the division is
unguarded, so at `elapsed = 0` the IEEE result is `+Inf` whenever
`totalOps > 0`, and NaN when `totalOps = 0` — not an explicitly reported
zero. -/
theorem claim_C7_amended_throughput :
    (∀ (totalOps : ℕ) (elapsed : ℚ), 0 < elapsed →
        throughputCalc totalOps elapsed = .fin (totalOps / elapsed)) ∧
      throughputCalc 1000 2 = .fin 500 ∧
      (∀ totalOps : ℕ, 0 < totalOps → throughputCalc totalOps 0 = .posInf) ∧
      throughputCalc 0 0 = .nan := by
  have hpos : ∀ (totalOps : ℕ) (elapsed : ℚ), 0 < elapsed →
      throughputCalc totalOps elapsed = .fin (totalOps / elapsed) := by
    intro totalOps elapsed he
    simp only [throughputCalc, goDivF]
    rw [if_neg (ne_of_gt he)]
  refine ⟨hpos, ?_, ?_, ?_⟩
  · rw [hpos 1000 2 (by norm_num)]
    norm_num
  · intro totalOps ho
    simp only [throughputCalc, goDivF, if_true]
    rw [if_neg (by exact_mod_cast Nat.pos_iff_ne_zero.mp ho)]
  · simp only [throughputCalc, goDivF, if_true]
    rw [if_pos (by norm_num)]

/-- Witness for the amended C7 at concrete inputs. -/
theorem claim_C7_amended_throughput_witness :
    throughputCalc 1000 2 = .fin 500 ∧ throughputCalc 1000 0 = .posInf :=
  ⟨claim_C7_amended_throughput.2.1,
    claim_C7_amended_throughput.2.2.1 1000 (by norm_num)⟩

/-! ## Worker loops and the shared counters (main.go lines 225-286, 327-364)

Real time is abstracted away: for each worker, the environment fixes the
finite sequence of loop iterations its deadline window allows (the loop-top
check `time.Now().Before(testEndTime)` fails after the last of them), and
for each iteration whether the external call succeeds and, for inserts, the
batch size used (fixed or recomputed by the ramp-up scheduler). -/

/-- One iteration of an insert worker's loop: the batch size in effect for
the iteration and whether the external `Insert` call succeeds. -/
structure InsertIter where
  batchSize : ℕ
  ok : Bool
deriving DecidableEq

/-- The observable result of one worker's loop: what it merged into the
shared counter, how many loop iterations it executed, and the value of its
local success counter (`batchCount` / `searchCount`, which `continue`
skips on failure). -/
structure WorkerResult where
  contributed : ℕ
  iterationsRun : ℕ
  localCount : ℕ
deriving DecidableEq

/-- The insert worker loop of main.go lines 241-281: on a failed `Insert`
the error is logged and the loop `continue`s to the next iteration without
touching the shared counter; on success the shared counter grows by the
batch size of this iteration. -/
def insertWorkerLoop : List InsertIter → WorkerResult
  | [] => ⟨0, 0, 0⟩
  | it :: rest =>
    let r := insertWorkerLoop rest
    if it.ok then ⟨it.batchSize + r.contributed, r.iterationsRun + 1, r.localCount + 1⟩
    else ⟨r.contributed, r.iterationsRun + 1, r.localCount⟩

/-- What one insert worker adds to `totalVectorsInserted` over its run. -/
def workerInserted (iters : List InsertIter) : ℕ :=
  (insertWorkerLoop iters).contributed

/-- `totalVectorsInserted` at the end of the insertion phase: the joined
contributions of all workers. -/
def insertPhaseTotal (outcomes : List (List InsertIter)) : ℕ :=
  (outcomes.map workerInserted).sum

/-- The search worker loop of main.go lines 340-360: each successful
`Search` adds one to the shared counter; a failed one is logged and the
loop `continue`s. -/
def searchWorkerLoop : List Bool → WorkerResult
  | [] => ⟨0, 0, 0⟩
  | ok :: rest =>
    let r := searchWorkerLoop rest
    if ok then ⟨r.contributed + 1, r.iterationsRun + 1, r.localCount + 1⟩
    else ⟨r.contributed, r.iterationsRun + 1, r.localCount⟩

/-- `totalSearchesPerformed` at the end of the search phase. -/
def searchPhaseTotal (outcomes : List (List Bool)) : ℕ :=
  (outcomes.map (fun w => (searchWorkerLoop w).contributed)).sum

/-- The amount one loop iteration merges into the shared counter under the
mutex: the batch size on success, nothing on failure. -/
def iterContribution (it : InsertIter) : ℕ := if it.ok then it.batchSize else 0

/-- The shared counter after a serialized sequence of counter updates.  The
mutex makes each `totalVectorsInserted += currentBatchSize` atomic, so every
concurrent execution of the phase is equivalent to running the workers'
iterations in some interleaved order; `sched` is that order. -/
def phaseCounter (sched : List InsertIter) : ℕ :=
  sched.foldl (fun acc it => if it.ok then acc + it.batchSize else acc) 0

/-! ## Helper lemmas about the counters -/

theorem phaseCounter_foldl (sched : List InsertIter) (acc : ℕ) :
    sched.foldl (fun acc it => if it.ok then acc + it.batchSize else acc) acc =
      acc + (sched.map iterContribution).sum := by
  induction sched generalizing acc with
  | nil => simp
  | cons it rest ih =>
    simp only [List.foldl_cons, List.map_cons, List.sum_cons, ih,
      iterContribution]
    by_cases h : it.ok = true <;> simp [h] <;> omega

theorem phaseCounter_eq_sum (sched : List InsertIter) :
    phaseCounter sched = (sched.map iterContribution).sum := by
  unfold phaseCounter
  rw [phaseCounter_foldl]
  omega

theorem insertWorkerLoop_contributed (iters : List InsertIter) :
    (insertWorkerLoop iters).contributed = (iters.map iterContribution).sum := by
  induction iters with
  | nil => rfl
  | cons it rest ih =>
    simp only [insertWorkerLoop, List.map_cons, List.sum_cons, iterContribution]
    by_cases h : it.ok = true <;> simp [h, ih]

theorem workerInserted_eq_sum (iters : List InsertIter) :
    workerInserted iters = (iters.map iterContribution).sum :=
  insertWorkerLoop_contributed iters

/-! ## Phase orchestration (main.go `main`, lines 105-418)

The orchestration is a straight line of steps; every `log.Fatalf` call
terminates the process with a non-zero exit, modelled as an abort (`none`
in the second component) at the step where it occurs.  The first component
lists the steps entered, in order. -/

/-- The forward-only orchestration steps of `main`. -/
inductive OrchPhase where
  | connect | checkCollection | dropExisting | createCollection
  | insertPhase | flushCollection | createIndex | loadCollection
  | searchPhase | cleanup | report
deriving DecidableEq

/-- Outcomes of all external calls during one run: one flag per fatal-on-
error call, plus the per-worker iteration outcomes of the two phases. -/
structure Env where
  connectOk : Bool
  hasCollectionOk : Bool
  hasCollection : Bool
  dropOk : Bool
  createOk : Bool
  insertOutcomes : List (List InsertIter)
  flushOk : Bool
  indexOk : Bool
  loadOk : Bool
  searchOutcomes : List (List Bool)
  cleanupOk : Bool

/-- The structured content of the final summary (main.go lines 381-417). -/
structure Report where
  totalVectorsInserted : ℕ
  totalSearchesPerformed : ℕ
  searchDeadlineNs : ℕ
deriving DecidableEq

/-- The search phase duration of main.go line 324:
`searchDuration := *duration / 4` — Go `time.Duration` division, i.e.
integer division of the nanosecond count. -/
def searchDurationNs (durationNs : ℕ) : ℕ := durationNs / 4

/-- The orchestration of `main` (main.go lines 177-418): connect, check and
drop any existing collection, create the collection, run the insertion
phase, flush, create the index, load the collection, run the search phase
for a quarter of the configured duration, clean up, and emit the report.
Each fatal failure aborts at its step (`log.Fatalf`, non-zero exit). -/
def mainRun (durationNs : ℕ) (env : Env) : List OrchPhase × Option Report :=
  if env.connectOk = false then ([.connect], none)
  else if env.hasCollectionOk = false then ([.connect, .checkCollection], none)
  else if env.hasCollection && !env.dropOk then
    ([.connect, .checkCollection, .dropExisting], none)
  else
    let setup : List OrchPhase :=
      [.connect, .checkCollection] ++
        (if env.hasCollection then [.dropExisting] else [])
    if env.createOk = false then (setup ++ [.createCollection], none)
    else if env.flushOk = false then
      (setup ++ [.createCollection, .insertPhase, .flushCollection], none)
    else if env.indexOk = false then
      (setup ++ [.createCollection, .insertPhase, .flushCollection,
        .createIndex], none)
    else if env.loadOk = false then
      (setup ++ [.createCollection, .insertPhase, .flushCollection,
        .createIndex, .loadCollection], none)
    else if env.cleanupOk = false then
      (setup ++ [.createCollection, .insertPhase, .flushCollection,
        .createIndex, .loadCollection, .searchPhase, .cleanup], none)
    else
      (setup ++ [.createCollection, .insertPhase, .flushCollection,
        .createIndex, .loadCollection, .searchPhase, .cleanup, .report],
       some ⟨insertPhaseTotal env.insertOutcomes,
         searchPhaseTotal env.searchOutcomes, searchDurationNs durationNs⟩)

/-! ## Claim theorems for the counters and the orchestration -/

theorem insertPhaseTotal_eq_sum (outcomes : List (List InsertIter)) :
    insertPhaseTotal outcomes = (outcomes.flatten.map iterContribution).sum := by
  induction outcomes with
  | nil => rfl
  | cons w rest ih =>
    simp only [insertPhaseTotal, List.map_cons, List.sum_cons,
      List.flatten_cons, List.map_append, List.sum_append] at *
    rw [workerInserted_eq_sum, ih]

/-- Claim C1: the aggregate counter at the end of the insertion phase
equals exactly the sum of the batch sizes of the successfully completed
operations: every serialized order of the mutex-protected merges that is a
permutation of the workers' iterations produces exactly
`insertPhaseTotal` (no successful unit double-counted or lost); `N`
workers each successfully completing `M` units of size `S` produce
`N*M*S`; a unit whose external call failed contributes nothing; and each
merge step only grows the counter. -/
theorem claim_C1_aggregate_counter :
    (∀ (outcomes : List (List InsertIter)) (sched : List InsertIter),
        sched.Perm outcomes.flatten →
        phaseCounter sched = insertPhaseTotal outcomes) ∧
      (∀ N M S : ℕ,
        insertPhaseTotal (List.replicate N (List.replicate M ⟨S, true⟩)) =
          N * M * S) ∧
      (∀ (it : InsertIter) (sched : List InsertIter), it.ok = false →
        phaseCounter (it :: sched) = phaseCounter sched) ∧
      (∀ (sched : List InsertIter) (it : InsertIter),
        phaseCounter sched ≤ phaseCounter (sched ++ [it])) := by
  refine ⟨?_, ?_, ?_, ?_⟩
  · intro outcomes sched hperm
    rw [phaseCounter_eq_sum, (hperm.map iterContribution).sum_eq,
      insertPhaseTotal_eq_sum]
  · intro N M S
    have hw : workerInserted (List.replicate M ⟨S, true⟩) = M * S := by
      rw [workerInserted_eq_sum, List.map_replicate]
      simp [iterContribution, List.sum_replicate]
    unfold insertPhaseTotal
    rw [List.map_replicate, hw, List.sum_replicate, smul_eq_mul]
    exact (mul_assoc N M S).symm
  · intro it sched hfail
    rw [phaseCounter_eq_sum, phaseCounter_eq_sum, List.map_cons,
      List.sum_cons]
    simp [iterContribution, hfail]
  · intro sched it
    rw [phaseCounter_eq_sum, phaseCounter_eq_sum, List.map_append,
      List.sum_append]
    omega

/-- Witness for C1: a concrete interleaved merge order of two workers, one
of whose units failed. -/
theorem claim_C1_aggregate_counter_witness :
    phaseCounter [⟨5, true⟩, ⟨2, true⟩, ⟨3, false⟩] =
      insertPhaseTotal [[⟨2, true⟩, ⟨3, false⟩], [⟨5, true⟩]] :=
  claim_C1_aggregate_counter.1 [[⟨2, true⟩, ⟨3, false⟩], [⟨5, true⟩]]
    [⟨5, true⟩, ⟨2, true⟩, ⟨3, false⟩] (by decide)

/-- Claim C2: a per-operation failure in the insertion or search phase is
logged and the worker proceeds to its next iteration: the worker loop
executes every iteration its deadline window allows regardless of
failures, and a run whose setup and teardown calls all succeed reaches the
final report whatever the per-operation outcomes were. -/
theorem claim_C2_per_op_failure_nonfatal :
    (∀ iters : List InsertIter,
        (insertWorkerLoop iters).iterationsRun = iters.length) ∧
      (∀ outcomes : List Bool,
        (searchWorkerLoop outcomes).iterationsRun = outcomes.length) ∧
      (∀ (durationNs : ℕ) (env : Env),
        env.connectOk = true → env.hasCollectionOk = true →
        (env.hasCollection = true → env.dropOk = true) →
        env.createOk = true → env.flushOk = true → env.indexOk = true →
        env.loadOk = true → env.cleanupOk = true →
        (mainRun durationNs env).2 =
          some ⟨insertPhaseTotal env.insertOutcomes,
            searchPhaseTotal env.searchOutcomes,
            searchDurationNs durationNs⟩) := by
  refine ⟨?_, ?_, ?_⟩
  · intro iters
    induction iters with
    | nil => rfl
    | cons it rest ih =>
      simp only [insertWorkerLoop, List.length_cons]
      by_cases h : it.ok = true <;> simp [h, ih]
  · intro outcomes
    induction outcomes with
    | nil => rfl
    | cons b rest ih =>
      simp only [searchWorkerLoop, List.length_cons]
      by_cases h : b = true <;> simp [h, ih]
  · intro d env h1 h2 h3 h4 h5 h6 h7 h8
    have hdrop : ¬ (env.hasCollection && !env.dropOk) = true := by
      cases hc : env.hasCollection
      · simp
      · simp [h3 hc]
    unfold mainRun
    rw [if_neg (by simp [h1]), if_neg (by simp [h2]), if_neg hdrop]
    simp [h4, h5, h6, h7, h8]

/-- Witness for C2: a worker whose first insert fails still runs its second
iteration, and a run containing that failure still reaches the report. -/
theorem claim_C2_per_op_failure_nonfatal_witness :
    (insertWorkerLoop [⟨500, false⟩, ⟨500, true⟩]).iterationsRun = 2 ∧
      (mainRun 1000000000
          ⟨true, true, false, true, true, [[⟨500, false⟩, ⟨500, true⟩]],
            true, true, true, [[false, true]], true⟩).2 =
        some ⟨insertPhaseTotal [[⟨500, false⟩, ⟨500, true⟩]],
          searchPhaseTotal [[false, true]], searchDurationNs 1000000000⟩ :=
  ⟨claim_C2_per_op_failure_nonfatal.1 _,
    claim_C2_per_op_failure_nonfatal.2.2 1000000000 _ rfl rfl (fun _ => rfl)
      rfl rfl rfl rfl rfl⟩

/-- Claim C8: any run that reaches its report ran the search phase with a
deadline of exactly a quarter of the configured total duration: the Go
duration division `*duration / 4` on integer nanoseconds, which is the
exact rational quarter rounded down. -/
theorem claim_C8_search_quarter (durationNs : ℕ) (env : Env) (rep : Report)
    (h : (mainRun durationNs env).2 = some rep) :
    rep.searchDeadlineNs = durationNs / 4 ∧
      4 * rep.searchDeadlineNs ≤ durationNs ∧
      durationNs < 4 * rep.searchDeadlineNs + 4 := by
  unfold mainRun at h
  repeat' split at h
  all_goals try exact absurd h (fun hh => Option.noConfusion hh)
  all_goals have h2 := Option.some.inj h
  all_goals subst h2
  all_goals exact ⟨rfl, show 4 * (durationNs / 4) ≤ durationNs by omega,
    show durationNs < 4 * (durationNs / 4) + 4 by omega⟩

/-- Witness for C8 at a concrete 30-second run. -/
theorem claim_C8_search_quarter_witness :
    (⟨0, 0, 7500000000⟩ : Report).searchDeadlineNs = 30000000000 / 4 ∧
      4 * (⟨0, 0, 7500000000⟩ : Report).searchDeadlineNs ≤ 30000000000 ∧
      (30000000000 : ℕ) <
        4 * (⟨0, 0, 7500000000⟩ : Report).searchDeadlineNs + 4 :=
  claim_C8_search_quarter 30000000000
    ⟨true, true, false, true, true, [], true, true, true, [], true⟩
    ⟨0, 0, 7500000000⟩ rfl

/-- Claim C9: whenever Connect, CreateCollection, Flush, CreateIndex,
LoadCollection or Cleanup fails, the run aborts immediately
(`log.Fatalf`, non-zero exit): no orchestration state later than the
failing step is ever entered — a Connect failure halts with nothing past
the connect step (in particular before the insertion phase), a
CreateCollection failure before the insertion phase, a Flush failure
before index creation, a CreateIndex failure before the search phase, a
LoadCollection failure before the search phase, a Cleanup failure before
the report step — and no final report is produced in any of these cases. -/
theorem claim_C9_fatal_failures_abort (durationNs : ℕ) (env : Env) :
    (env.connectOk = false → mainRun durationNs env = ([.connect], none)) ∧
      (env.createOk = false →
        OrchPhase.insertPhase ∉ (mainRun durationNs env).1 ∧
          OrchPhase.flushCollection ∉ (mainRun durationNs env).1 ∧
          OrchPhase.createIndex ∉ (mainRun durationNs env).1 ∧
          OrchPhase.loadCollection ∉ (mainRun durationNs env).1 ∧
          OrchPhase.searchPhase ∉ (mainRun durationNs env).1 ∧
          OrchPhase.cleanup ∉ (mainRun durationNs env).1 ∧
          OrchPhase.report ∉ (mainRun durationNs env).1 ∧
          (mainRun durationNs env).2 = none) ∧
      (env.flushOk = false →
        OrchPhase.createIndex ∉ (mainRun durationNs env).1 ∧
          OrchPhase.loadCollection ∉ (mainRun durationNs env).1 ∧
          OrchPhase.searchPhase ∉ (mainRun durationNs env).1 ∧
          OrchPhase.cleanup ∉ (mainRun durationNs env).1 ∧
          OrchPhase.report ∉ (mainRun durationNs env).1 ∧
          (mainRun durationNs env).2 = none) ∧
      (env.indexOk = false →
        OrchPhase.loadCollection ∉ (mainRun durationNs env).1 ∧
          OrchPhase.searchPhase ∉ (mainRun durationNs env).1 ∧
          OrchPhase.cleanup ∉ (mainRun durationNs env).1 ∧
          OrchPhase.report ∉ (mainRun durationNs env).1 ∧
          (mainRun durationNs env).2 = none) ∧
      (env.loadOk = false →
        OrchPhase.searchPhase ∉ (mainRun durationNs env).1 ∧
          OrchPhase.cleanup ∉ (mainRun durationNs env).1 ∧
          OrchPhase.report ∉ (mainRun durationNs env).1 ∧
          (mainRun durationNs env).2 = none) ∧
      (env.cleanupOk = false →
        OrchPhase.report ∉ (mainRun durationNs env).1 ∧
          (mainRun durationNs env).2 = none) := by
  obtain ⟨co, hco, hc, dr, cr, io, fl, ix, lo, so, cl⟩ := env
  simp only [mainRun]
  cases co <;> cases hco <;> cases hc <;> cases dr <;> cases cr <;>
    cases fl <;> cases ix <;> cases lo <;> cases cl <;> simp

/-- Witness for C9: a failing CreateIndex call aborts before loading,
searching, cleanup and the report, with no report produced, at a concrete
environment. -/
theorem claim_C9_fatal_failures_abort_witness :
    OrchPhase.loadCollection ∉
        (mainRun 30000000000
          ⟨true, true, false, true, true, [], true, false, true, [], true⟩).1 ∧
      OrchPhase.searchPhase ∉
        (mainRun 30000000000
          ⟨true, true, false, true, true, [], true, false, true, [], true⟩).1 ∧
      OrchPhase.cleanup ∉
        (mainRun 30000000000
          ⟨true, true, false, true, true, [], true, false, true, [], true⟩).1 ∧
      OrchPhase.report ∉
        (mainRun 30000000000
          ⟨true, true, false, true, true, [], true, false, true, [], true⟩).1 ∧
      (mainRun 30000000000
          ⟨true, true, false, true, true, [], true, false, true, [], true⟩).2 =
        none :=
  (claim_C9_fatal_failures_abort 30000000000
    ⟨true, true, false, true, true, [], true, false, true, [], true⟩).2.2.2.1 rfl

end MilvusStress
